import Mathlib

/-!
Verification development for the RSS feed plugin: a shallow embedding of
`rss_feed_plugin/rss_db.py` (the SQLite-backed item store) and
`rss_feed_plugin/rss_feed.py` (queue consumer, retention scheduler and feed
renderer), together with proofs of the specified properties.

Modelling conventions:
* The `rss_items` table is a `Store`: a list of rows plus the next
  auto-increment id.  The schema constraints (`id` primary key,
  `url UNIQUE`) are expressed by the well-formedness predicate `WF`.
* Timestamps (`published_date`) are integers; the `created_at` column is
  audit-only, never read by any operation, and is not modelled.
* Every Python storage operation is wrapped in `try:`/`except:`; a possible
  exception from the storage layer is modelled by a `fault` flag threaded
  into `tryExcept`, which returns the handler's fallback value when the
  storage layer raises.  A fault aborts the operation before its commit, so
  the store is left unchanged.
* SQLite's `ORDER BY published_date` is modelled with a stable insertion
  sort; `LIMIT n` with a negative `n` means "no limit", as in SQLite.
-/

set_option linter.unusedVariables false

namespace RssPlugin

/-- A persisted row of the `rss_items` table (column `created_at` is
audit-only and never consumed, so it is not modelled). -/
structure Item where
  id : Nat
  title : String
  content : String
  url : String
  published_date : Int
deriving DecidableEq, Repr

/-- A row as returned by `get_rss_items`:
`SELECT title, content, url, published_date`. -/
structure Row where
  title : String
  content : String
  url : String
  published_date : Int
deriving DecidableEq, Repr

/-- The projection performed by the `SELECT` in `get_rss_items`. -/
def Item.toRow (it : Item) : Row :=
  { title := it.title, content := it.content, url := it.url,
    published_date := it.published_date }

/-- The state of the `rss_items` table: the rows plus the next
auto-increment id (SQLite rowids start at 1). -/
structure Store where
  items : List Item
  nextId : Nat
deriving DecidableEq, Repr

/-- The state right after `create_rss_db` on a fresh database: empty table. -/
def Store.init : Store := { items := [], nextId := 1 }

/-- Models the `try:`/`except:` wrapper around every storage operation:
when the storage layer raises (`fault = true`) the handler's fallback value
is returned; otherwise the body's result.  No exception ever escapes. -/
def tryExcept {α : Type} (fault : Bool) (body : α) (handler : α) : α :=
  match (if fault then Except.error "storage error" else Except.ok body :
      Except String α) with
  | Except.ok r => r
  | Except.error _ => handler

/-- Does some row already carry this url?  (The `url UNIQUE` constraint
consulted by `INSERT OR IGNORE`.) -/
def hasUrl (s : Store) (url : String) : Bool :=
  s.items.any (fun it => it.url == url)

/-- `add_rss_item` from `rss_db.py`: `INSERT OR IGNORE` keyed on `url`,
committing and returning `True` iff a new row was inserted (`rowcount > 0`);
a duplicate url is silently ignored and `False` returned.  On a storage
fault the exception handler returns `False` with the store unchanged. -/
def add_rss_item (fault : Bool) (title content url : String)
    (published_date : Int) (s : Store) : Bool × Store :=
  tryExcept fault
    (if hasUrl s url then
      (false, s)
    else
      (true,
        { items := s.items ++
            [{ id := s.nextId, title := title, content := content,
               url := url, published_date := published_date }],
          nextId := s.nextId + 1 }))
    (false, s)

/-- Ascending comparison on `published_date` (SQLite `ORDER BY published_date ASC`). -/
def pdLe (a b : Item) : Prop := a.published_date ≤ b.published_date

/-- Descending comparison on `published_date` (SQLite `ORDER BY published_date DESC`). -/
def pdGe (a b : Item) : Prop := b.published_date ≤ a.published_date

instance : DecidableRel pdLe :=
  fun a b => inferInstanceAs (Decidable (a.published_date ≤ b.published_date))

instance : DecidableRel pdGe :=
  fun a b => inferInstanceAs (Decidable (b.published_date ≤ a.published_date))

instance : IsTotal Item pdLe := ⟨fun a b => Int.le_total a.published_date b.published_date⟩

instance : IsTotal Item pdGe := ⟨fun a b => Int.le_total b.published_date a.published_date⟩

instance : IsTrans Item pdLe := ⟨fun _ _ _ hab hbc => le_trans hab hbc⟩

instance : IsTrans Item pdGe := ⟨fun _ _ _ hab hbc => le_trans hbc hab⟩

/-- `ORDER BY published_date ASC` (stable sort). -/
def sortAsc (l : List Item) : List Item := List.insertionSort pdLe l

/-- `ORDER BY published_date DESC` (stable sort). -/
def sortDesc (l : List Item) : List Item := List.insertionSort pdGe l

/-- The rows selected by the query in `get_rss_items`:
`ORDER BY published_date DESC LIMIT ?`.  A negative SQLite `LIMIT` means
unbounded, so every row is returned. -/
def selected_items (limit : Int) (s : Store) : List Item :=
  if limit < 0 then sortDesc s.items else (sortDesc s.items).take limit.toNat

/-- `get_rss_items` from `rss_db.py`: the selected rows projected to
`(title, content, url, published_date)`; the handler returns `[]` on a
storage fault. -/
def get_rss_items (fault : Bool) (limit : Int) (s : Store) : List Row :=
  tryExcept fault ((selected_items limit s).map Item.toRow) []

/-- `cleanup_old_rss_items` from `rss_db.py`: count the rows and, when the
count exceeds `max_items`, delete the rows whose ids are produced by
`SELECT id FROM rss_items ORDER BY published_date ASC LIMIT items_to_delete`;
otherwise do nothing.  On a storage fault the handler leaves the store
unchanged (the transaction never committed). -/
def cleanup_old_rss_items (fault : Bool) (max_items : Int) (s : Store) : Store :=
  tryExcept fault
    (let total_items : Int := s.items.length
     if total_items > max_items then
       let items_to_delete : Nat := (total_items - max_items).toNat
       let victims : List Nat := ((sortAsc s.items).take items_to_delete).map Item.id
       { s with items := s.items.filter (fun it => !(decide (it.id ∈ victims))) }
     else s)
    s

/-- `get_rss_items_count` from `rss_db.py`: `SELECT COUNT(*)`, with the
handler returning `0` on a storage fault. -/
def get_rss_items_count (fault : Bool) (s : Store) : Nat :=
  tryExcept fault s.items.length 0

/-- Well-formedness of a store state: exactly what the SQLite schema of
`create_rss_db` enforces — `id` is a unique primary key below the
auto-increment counter and `url` is UNIQUE. -/
def WF (s : Store) : Prop :=
  (s.items.map Item.id).Nodup ∧ (s.items.map Item.url).Nodup ∧
    ∀ it ∈ s.items, it.id < s.nextId

instance (s : Store) : Decidable (WF s) := by
  unfold WF; infer_instance

/-- The store operations exposed by `rss_db.py` (each carrying its own
storage-fault flag). -/
inductive StoreOp where
  | addItem (fault : Bool) (title content url : String) (published_date : Int)
  | listItems (fault : Bool) (limit : Int)
  | countItems (fault : Bool)
  | trimItems (fault : Bool) (max_items : Int)

/-- State transition of one store operation (reads leave the state alone). -/
def applyOp (s : Store) : StoreOp → Store
  | StoreOp.addItem f t c u pd => (add_rss_item f t c u pd s).2
  | StoreOp.listItems _ _ => s
  | StoreOp.countItems _ => s
  | StoreOp.trimItems f m => cleanup_old_rss_items f m s

/-- Run a sequence of store operations. -/
def runOps (s : Store) (ops : List StoreOp) : Store := ops.foldl applyOp s

/-! ### The queue consumer and renderer (`rss_feed.py`)

Python strings are sequences of Unicode code points, so the string
primitives (`str.find`, slicing, `len`) are modelled over `List Char`. -/

/-- Does `needle` occur at the head of `hay`? -/
def headMatch : List Char → List Char → Bool
  | [], _ => true
  | _ :: _, [] => false
  | n :: ns, c :: cs => n == c && headMatch ns cs

/-- Index of the first occurrence of `needle` in the second list, if any. -/
def scanFind (needle : List Char) : List Char → Option Nat
  | [] => if headMatch needle [] then some 0 else none
  | c :: rest =>
      if headMatch needle (c :: rest) then some 0
      else (scanFind needle rest).map (fun k => k + 1)

/-- Python's `str.find(sub, start)`: the smallest index `i ≥ start`
(counting code points) at which `sub` occurs in `hay`, or `-1` if absent. -/
def pyFind (hay needle : List Char) (start : Nat) : Int :=
  match scanFind needle (hay.drop start) with
  | some k => (start : Int) + k
  | none => -1

/-- The marker scanned for by `add_item_to_feed`
(10 code points: the emoji counts as one). -/
def TITLE_MARKER : List Char := String.toList "🆕 Title : "

/-- The fallback title used when extraction does not fire. -/
def DEFAULT_TITLE : String := "New Vinted Item"

/-- The title-extraction logic at the top of `RSSFeed.add_item_to_feed`:

    title = "New Vinted Item"
    title_start = content.find(marker) + len(marker)
    if title_start > len(marker):
        title_end = content.find(chr(10), title_start)
        if title_end > 0:
            title = content[title_start:title_end]

A pure, total function: nothing in the body can raise (the surrounding
`try:`/`except: pass` is dead code), and it has no side effects. -/
def extract_title (content : List Char) : String :=
  let title_start : Int := pyFind content TITLE_MARKER 0 + TITLE_MARKER.length
  if title_start > (TITLE_MARKER.length : Int) then
    let title_end : Int := pyFind content (String.toList "\n") title_start.toNat
    if title_end > 0 then
      String.mk ((content.drop title_start.toNat).take (title_end - title_start).toNat)
    else DEFAULT_TITLE
  else DEFAULT_TITLE

/-- `RSSFeed.add_item_to_feed`: extract a title from the payload and insert
the item via `add_rss_item`, stamping the current UTC time (passed here
explicitly as `now`). -/
def add_item_to_feed (fault : Bool) (content url : String) (now : Int)
    (s : Store) : Bool × Store :=
  add_rss_item fault (extract_title content.toList) content url now s

/-- Decimal digits folded into a number. -/
def digitsToNat (l : List Char) : Nat :=
  l.foldl (fun acc c => acc * 10 + (c.toNat - 48)) 0

/-- Nonempty all-digit parse; anything else is an error. -/
def parseNatDigits (l : List Char) : Except Unit Nat :=
  if l.isEmpty then Except.error ()
  else if l.all Char.isDigit then Except.ok (digitsToNat l) else Except.error ()

/-- Models Python's `int(str)` on configuration values: optional
surrounding spaces, optional sign, decimal digits; anything else raises
(modelled as `Except.error`). -/
def pyInt (str : String) : Except Unit Int :=
  let t := ((str.toList.dropWhile (fun c => c == ' ')).reverse.dropWhile
      (fun c => c == ' ')).reverse
  match t with
  | '-' :: rest => (parseNatDigits rest).map (fun n => -(n : Int))
  | '+' :: rest => (parseNatDigits rest).map (fun n => (n : Int))
  | _ => (parseNatDigits t).map (fun n => (n : Int))

/-- The `try: int(db.get_parameter(key)) except: default` pattern used by
`periodic_cleanup`, `serve_rss` and `run`.  The external configuration
collaborator (module `db`) is modelled by the optional string it returns;
a missing parameter (or any raise inside `get_parameter`) is `none`, and a
failing `int()` conversion likewise falls back to the default. -/
def read_int_param (param : Option String) (dflt : Int) : Int :=
  match param with
  | none => dflt
  | some v =>
    match pyInt v with
    | Except.ok n => n
    | Except.error _ => dflt

/-- One cycle of `RSSFeed.periodic_cleanup` after its hourly sleep:
re-read `rss_max_items` from configuration at the point of use (default
100), multiply by the fixed 10x buffer factor, and trim the store. -/
def periodic_cleanup_cycle (fault : Bool) (param : Option String)
    (s : Store) : Store :=
  cleanup_old_rss_items fault (read_int_param param 100 * 10) s

/-- Python's `html.escape` on one character (`quote=True`, the default:
quotes are escaped too). -/
def escapeChar (c : Char) : List Char :=
  if c == '&' then String.toList "&amp;"
  else if c == '<' then String.toList "&lt;"
  else if c == '>' then String.toList "&gt;"
  else if c == '"' then String.toList "&quot;"
  else if c == '\'' then String.toList "&#x27;"
  else [c]

/-- Python's `html.escape` applied to the stored content. -/
def htmlEscape (s : String) : String :=
  String.mk (s.toList.map escapeChar).flatten

/-- Python's `str.rstrip(chr(47))` as applied to `request.host_url`:
remove every trailing slash. -/
def rstripSlash (s : String) : String :=
  String.mk ((s.toList.reverse.dropWhile (fun c => c == '/')).reverse)

/-- One entry of the generated feed (`fe.id/title/link/description/published`). -/
structure FeedEntry where
  entryId : String
  title : String
  link : String
  description : String
  published : Int
deriving DecidableEq, Repr

/-- The generated feed document: channel metadata plus entries.  It stands
for the payload serialized by the external feedgen library's `rss_str()`;
a `FeedDoc` value is by construction a syntactically valid document. -/
structure FeedDoc where
  title : String
  description : String
  link : String
  language : String
  entries : List FeedEntry
deriving DecidableEq, Repr

/-- A Flask `Response`: body, HTTP status (200 unless specified) and
mimetype. -/
structure HttpResponse where
  body : FeedDoc
  status : Nat
  mimetype : String
deriving DecidableEq, Repr

/-- `RSSFeed.serve_rss`: build the feed document for `GET /` from the
current store state.  `fault = true` models an exception raised anywhere
in the `try:` block (the block performs no external side effect, so a
raise at any point yields the same observable outcome); the `except:`
handler then builds the minimal fallback document.  The stored
`published_date` is an integer in this model, so the string-timestamp
parsing branch is vacuous.  Both paths answer HTTP 200 with mimetype
`application/rss+xml`. -/
def serve_rss (fault : Bool) (hostUrl : String) (param : Option String)
    (s : Store) : HttpResponse :=
  match (if fault then Except.error "render error" else
      Except.ok
        (let max_items := read_int_param param 100
         let rows := get_rss_items false max_items s
         { title := "Vinted Notifications",
           description := "Latest items from Vinted matching your search queries",
           link := rstripSlash hostUrl,
           language := "en",
           entries := rows.map (fun r =>
             { entryId := r.url, title := r.title, link := r.url,
               description := htmlEscape r.content,
               published := r.published_date }) } : FeedDoc) :
      Except String FeedDoc) with
  | Except.ok doc =>
      { body := doc, status := 200, mimetype := "application/rss+xml" }
  | Except.error _ =>
      { body := { title := "Vinted Notifications",
                  description := "Error generating feed",
                  link := rstripSlash hostUrl,
                  language := "en",
                  entries := [] },
        status := 200, mimetype := "application/rss+xml" }

/-! ### Concrete sample states (used to instantiate the general theorems) -/

/-- A sample row. -/
def sampleItemA : Item :=
  { id := 1, title := "a", content := "ca", url := "http://a", published_date := 5 }

/-- A second sample row, more recent than `sampleItemA`. -/
def sampleItemB : Item :=
  { id := 2, title := "b", content := "cb", url := "http://b", published_date := 7 }

/-- A two-row store with distinct urls and distinct publication dates. -/
def sampleStore : Store := { items := [sampleItemA, sampleItemB], nextId := 3 }

/-- A two-row store whose rows share the same `published_date`. -/
def tieStore : Store :=
  { items :=
      [{ id := 1, title := "a", content := "ca", url := "http://a", published_date := 5 },
       { id := 2, title := "b", content := "cb", url := "http://b", published_date := 5 }],
    nextId := 3 }

/-! ### Theorems -/

@[simp]
theorem tryExcept_false {α : Type} (body handler : α) :
    tryExcept false body handler = body := rfl

@[simp]
theorem tryExcept_true {α : Type} (body handler : α) :
    tryExcept true body handler = handler := rfl

theorem sortAsc_perm (l : List Item) : (sortAsc l).Perm l :=
  List.perm_insertionSort pdLe l

theorem sortDesc_perm (l : List Item) : (sortDesc l).Perm l :=
  List.perm_insertionSort pdGe l

theorem sortAsc_sorted (l : List Item) : List.Pairwise pdLe (sortAsc l) :=
  List.sorted_insertionSort pdLe l

theorem sortDesc_sorted (l : List Item) : List.Pairwise pdGe (sortDesc l) :=
  List.sorted_insertionSort pdGe l

/-- The deletion filter of `cleanup_old_rss_items` removes exactly the
rows occupying the first `n` positions of a duplicate-free sorted
permutation `sl` of the table: what remains is a permutation of the rest
of `sl`. -/
theorem filter_victims_perm_drop (l sl : List Item) (n : Nat)
    (hperm : sl.Perm l) (hids : (l.map Item.id).Nodup) :
    (l.filter (fun it => !(decide (it.id ∈ (sl.take n).map Item.id)))).Perm
      (sl.drop n) := by
  set p : Item → Bool := fun it => !(decide (it.id ∈ (sl.take n).map Item.id)) with hp
  have hslnd : (sl.map Item.id).Nodup := (hperm.map Item.id).nodup_iff.mpr hids
  have hsplit : sl.take n ++ sl.drop n = sl := List.take_append_drop n sl
  have hnd2 : ((sl.take n).map Item.id ++ (sl.drop n).map Item.id).Nodup := by
    rw [← List.map_append, hsplit]; exact hslnd
  have hdisj : ((sl.take n).map Item.id).Disjoint ((sl.drop n).map Item.id) :=
    (List.nodup_append.mp hnd2).2.2
  have htake : (sl.take n).filter p = [] := by
    apply List.filter_eq_nil_iff.mpr
    intro x hx
    simp only [hp, Bool.not_eq_true, Bool.not_eq_false', decide_eq_true_eq,
      Bool.not_eq_eq_eq_not, Bool.not_true, decide_eq_false_iff_not, Decidable.not_not]
    exact List.mem_map_of_mem Item.id hx
  have hdrop : (sl.drop n).filter p = sl.drop n := by
    apply List.filter_eq_self.mpr
    intro x hx
    have hxid : decide (x.id ∈ (sl.take n).map Item.id) = false :=
      decide_eq_false (fun hmem => hdisj hmem (List.mem_map_of_mem Item.id hx))
    show p x = true
    rw [hp]
    simp only [hxid, Bool.not_false]
  have h1 : (l.filter p).Perm (sl.filter p) := hperm.symm.filter p
  have h2 : sl.filter p = sl.drop n := by
    conv_lhs => rw [← hsplit]
    rw [List.filter_append, htake, hdrop, List.nil_append]
  exact h2 ▸ h1

theorem wf_applyOp (s : Store) (op : StoreOp) (h : WF s) : WF (applyOp s op) := by
  obtain ⟨hid, hurl, hlt⟩ := h
  cases op with
  | addItem f t c u pd =>
    cases f with
    | true => exact ⟨hid, hurl, hlt⟩
    | false =>
      by_cases hu : hasUrl s u = true
      · have hkeep : applyOp s (StoreOp.addItem false t c u pd) = s := by
          simp [applyOp, add_rss_item, tryExcept, hu]
        rw [hkeep]; exact ⟨hid, hurl, hlt⟩
      · have hu' : hasUrl s u = false := by
          simpa using hu
        have hnone : ∀ it ∈ s.items, ¬ (it.url == u) = true := List.any_eq_false.mp hu'
        have happ : applyOp s (StoreOp.addItem false t c u pd) =
            { items := s.items ++
                [{ id := s.nextId, title := t, content := c, url := u,
                   published_date := pd }],
              nextId := s.nextId + 1 } := by
          simp [applyOp, add_rss_item, tryExcept, hu']
        rw [happ]
        refine ⟨?_, ?_, ?_⟩
        · rw [List.map_append]
          refine List.Nodup.append hid (by simp) ?_
          intro a ha hb
          simp only [List.map_cons, List.map_nil, List.mem_singleton] at hb
          obtain ⟨it, hit, rfl⟩ := List.mem_map.mp ha
          exact absurd (hb ▸ hlt it hit) (lt_irrefl _)
        · rw [List.map_append]
          refine List.Nodup.append hurl (by simp) ?_
          intro a ha hb
          simp only [List.map_cons, List.map_nil, List.mem_singleton] at hb
          obtain ⟨it, hit, rfl⟩ := List.mem_map.mp ha
          exact hnone it hit (by simp [hb])
        · intro it hit
          rcases List.mem_append.mp hit with hold | hnew
          · exact Nat.lt_trans (hlt it hold) (Nat.lt_succ_self _)
          · simp only [List.mem_singleton] at hnew
            rw [hnew]
            exact Nat.lt_succ_self _
  | listItems f limit => exact ⟨hid, hurl, hlt⟩
  | countItems f => exact ⟨hid, hurl, hlt⟩
  | trimItems f m =>
    cases f with
    | true => exact ⟨hid, hurl, hlt⟩
    | false =>
      simp only [applyOp, cleanup_old_rss_items, tryExcept_false]
      split
      · refine ⟨?_, ?_, ?_⟩
        · exact hid.sublist ((List.filter_sublist _).map Item.id)
        · exact hurl.sublist ((List.filter_sublist _).map Item.url)
        · intro it hit
          exact hlt it (List.mem_filter.mp hit).1
      · exact ⟨hid, hurl, hlt⟩

theorem wf_runOps (ops : List StoreOp) : WF (runOps Store.init ops) := by
  have hstep : ∀ s, WF s → WF (runOps s ops) := by
    induction ops with
    | nil => intro s hs; exact hs
    | cons op rest ih => intro s hs; exact ih (applyOp s op) (wf_applyOp s op hs)
  exact hstep Store.init (by decide)

/-- C5: URL-uniqueness invariant: in every store state reachable from the
freshly created database by any sequence of add, list, count and trim
operations (with or without storage faults), at most one persisted row
exists per distinct url value. -/
theorem url_unique_invariant (ops : List StoreOp) :
    ((runOps Store.init ops).items.map Item.url).Nodup :=
  (wf_runOps ops).2.1

/-- C1: Idempotent insert: starting from any store state in which `url` is
absent, the first `add` returns `true`, the second `add` with the same
`url` returns `false` and leaves the store untouched, and afterwards
exactly one row carries that `url` — the one written by the first call,
whose title, content and published_date are not overwritten. -/
theorem add_twice_same_url (s : Store) (t c u : String) (pd : Int)
    (t' c' : String) (pd' : Int) (h : hasUrl s u = false) :
    (add_rss_item false t c u pd s).1 = true ∧
    (add_rss_item false t' c' u pd' (add_rss_item false t c u pd s).2).1 = false ∧
    (add_rss_item false t' c' u pd' (add_rss_item false t c u pd s).2).2 =
      (add_rss_item false t c u pd s).2 ∧
    (add_rss_item false t' c' u pd' (add_rss_item false t c u pd s).2).2.items.filter
        (fun it => it.url == u) =
      [{ id := s.nextId, title := t, content := c, url := u, published_date := pd }] := by
  have hnone : ∀ it ∈ s.items, ¬ (it.url == u) = true := List.any_eq_false.mp h
  have hadd : add_rss_item false t c u pd s =
      (true,
        { items := s.items ++
            [{ id := s.nextId, title := t, content := c, url := u, published_date := pd }],
          nextId := s.nextId + 1 }) := by
    simp [add_rss_item, tryExcept, h]
  have hhas2 : hasUrl (add_rss_item false t c u pd s).2 u = true := by
    rw [hadd]
    simp [hasUrl]
  have hadd2' : ∀ s₂ : Store, hasUrl s₂ u = true →
      add_rss_item false t' c' u pd' s₂ = (false, s₂) := by
    intro s₂ h₂
    simp [add_rss_item, tryExcept, h₂]
  have hadd2 : add_rss_item false t' c' u pd' (add_rss_item false t c u pd s).2 =
      (false, (add_rss_item false t c u pd s).2) :=
    hadd2' _ hhas2
  refine ⟨by rw [hadd], by rw [hadd2], by rw [hadd2], ?_⟩
  rw [hadd2, hadd]
  simp only [List.filter_append]
  rw [List.filter_eq_nil_iff.mpr hnone]
  simp

/-- Witness for C1 at a concrete input: the second insert of
`"http://a"` into the initially empty store reports `false`. -/
theorem add_twice_same_url_witness :
    (add_rss_item false "t2" "c2" "http://a" 6
      (add_rss_item false "t" "c" "http://a" 5 Store.init).2).1 = false :=
  (add_twice_same_url Store.init "t" "c" "http://a" 5 "t2" "c2" 6 rfl).2.1

/-- C7: Storage-failure defaults: when the storage layer raises during an
operation, the exception is caught at the operation boundary and a safe
default comes back — `add` returns `false` (store unchanged), `list`
returns the empty sequence, `count` returns `0`, and `trim` leaves the
store unchanged.  No operation's return type can carry an exception, so
none escapes. -/
theorem storage_failure_defaults (t c u : String) (pd : Int) (limit m : Int)
    (s : Store) :
    add_rss_item true t c u pd s = (false, s) ∧
    get_rss_items true limit s = [] ∧
    get_rss_items_count true s = 0 ∧
    cleanup_old_rss_items true m s = s :=
  ⟨rfl, rfl, rfl, rfl⟩

/-- C6: Renderer fallback: for every store state and inbound read, if an
exception occurs during rendering the handler returns the minimal valid
document — channel title `Vinted Notifications`, description
`Error generating feed`, the request-derived link, zero entries — and in
every case (failing or not) the response is HTTP 200 with the
`application/rss+xml` content type. -/
theorem renderer_fallback (hostUrl : String) (param : Option String) (s : Store) :
    serve_rss true hostUrl param s =
      { body := { title := "Vinted Notifications",
                  description := "Error generating feed",
                  link := rstripSlash hostUrl,
                  language := "en",
                  entries := [] },
        status := 200, mimetype := "application/rss+xml" } ∧
    ∀ fault : Bool, (serve_rss fault hostUrl param s).status = 200 ∧
      (serve_rss fault hostUrl param s).mimetype = "application/rss+xml" := by
  refine ⟨rfl, ?_⟩
  intro fault
  cases fault with
  | false => exact ⟨rfl, rfl⟩
  | true => exact ⟨rfl, rfl⟩

/-- C9: Retention scheduler cycle: each cycle re-reads `rss_max_items` at
the point of use, converts it with `int()` (falling back to the hard-coded
default 100 when the read or the conversion fails), multiplies by the
fixed buffer factor 10 and hands the product to the store's trim. -/
theorem retention_cycle_config (s : Store) (fault : Bool) :
    (∀ v n, pyInt v = Except.ok n →
      periodic_cleanup_cycle fault (some v) s =
        cleanup_old_rss_items fault (n * 10) s) ∧
    (∀ v, pyInt v = Except.error () →
      periodic_cleanup_cycle fault (some v) s =
        cleanup_old_rss_items fault (100 * 10) s) ∧
    periodic_cleanup_cycle fault none s = cleanup_old_rss_items fault (100 * 10) s := by
  refine ⟨?_, ?_, rfl⟩
  · intro v n hv
    simp [periodic_cleanup_cycle, read_int_param, hv]
  · intro v hv
    simp [periodic_cleanup_cycle, read_int_param, hv]

/-- Witness for C9 at concrete configuration values: `"42"` trims with
`420`, and the unparsable `"oops"` falls back to `100 * 10`. -/
theorem retention_cycle_config_witness :
    periodic_cleanup_cycle false (some "42") Store.init =
      cleanup_old_rss_items false (42 * 10) Store.init ∧
    periodic_cleanup_cycle false (some "oops") Store.init =
      cleanup_old_rss_items false (100 * 10) Store.init :=
  ⟨(retention_cycle_config Store.init false).1 "42" 42 rfl,
   (retention_cycle_config Store.init false).2.1 "oops" rfl⟩

/-- C8: Title extraction totality: `extract_title` is a pure total
function (nothing in its body can raise), and whenever the marker is
absent from the content, or no newline follows the marker position, the
generic fallback title is returned. -/
theorem extract_title_fallback (content : List Char) :
    (pyFind content TITLE_MARKER 0 = -1 → extract_title content = DEFAULT_TITLE) ∧
    (pyFind content (String.toList "\n")
        (pyFind content TITLE_MARKER 0 + (TITLE_MARKER.length : Int)).toNat = -1 →
      extract_title content = DEFAULT_TITLE) := by
  have hlen : (TITLE_MARKER.length : Int) = 10 := by decide
  constructor
  · intro h
    unfold extract_title
    rw [if_neg]
    rw [h, hlen]
    omega
  · intro h
    unfold extract_title
    by_cases hgt : pyFind content TITLE_MARKER 0 + (TITLE_MARKER.length : Int) >
        (TITLE_MARKER.length : Int)
    · rw [if_pos hgt, h, if_neg]
      omega
    · rw [if_neg hgt]

/-- Witness for C8 at a concrete input: `"hello"` contains no marker, so
the fallback title comes back. -/
theorem extract_title_fallback_witness :
    extract_title (String.toList "hello") = DEFAULT_TITLE :=
  (extract_title_fallback (String.toList "hello")).1 rfl

/-- C4: the exact end-to-end scenario of the spec fails on the code.  With
the marker at index 0 of the content, `content.find(marker)` returns 0, so
`title_start = 0 + 10` and the guard `title_start > len(marker)` (10 > 10)
is false: the extracted title is the fallback `New Vinted Item`, not
`Shoes` (prefixing one character makes extraction fire, showing the guard
is an off-by-one).  The deduplication part of the scenario does hold:
after a duplicate add of `http://a` the store holds exactly one row and
the feed query returns exactly one entry with that link. -/
theorem title_extraction_scenario_bug :
    extract_title (String.toList "🆕 Title : Shoes\nmore text") = "New Vinted Item" ∧
    "New Vinted Item" ≠ "Shoes" ∧
    extract_title (String.toList "x🆕 Title : Shoes\nmore text") = "Shoes" ∧
    get_rss_items_count false
      (add_item_to_feed false "🆕 Title : Shoes\nmore text" "http://a" 1
        (add_item_to_feed false "🆕 Title : Shoes\nmore text" "http://a" 0
          Store.init).2).2 = 1 ∧
    (get_rss_items false 100
      (add_item_to_feed false "🆕 Title : Shoes\nmore text" "http://a" 1
        (add_item_to_feed false "🆕 Title : Shoes\nmore text" "http://a" 0
          Store.init).2).2).map Row.url = ["http://a"] ∧
    (get_rss_items false 100
      (add_item_to_feed false "🆕 Title : Shoes\nmore text" "http://a" 1
        (add_item_to_feed false "🆕 Title : Shoes\nmore text" "http://a" 0
          Store.init).2).2).map Row.title = ["New Vinted Item"] := by
  refine ⟨rfl, by decide, rfl, rfl, rfl, rfl⟩

/-- C2 (amended): for every well-formed store state and `maxCount ≥ 0`:
if `count() > maxCount`, trim deletes exactly the `count() - maxCount`
oldest rows by `published_date` — afterwards `count() = maxCount`, every
surviving row was already present, every survivor is at least as recent
as every deleted row, and strictly more recent when the `published_date`
values are distinct; if `count() <= maxCount`, trim is a no-op and the
store is unchanged.  For `maxCount < 0` (reachable through the int-typed
configuration path) trim instead deletes every row, so the originally
claimed bound `count() <= maxCount` is unattainable there. -/
theorem trim_retention_bound (s : Store) (m : Int) (hwf : WF s) :
    ((get_rss_items_count false s : Int) ≤ m → cleanup_old_rss_items false m s = s) ∧
    (0 ≤ m → m < (get_rss_items_count false s : Int) →
      (get_rss_items_count false (cleanup_old_rss_items false m s) : Int) = m ∧
      (∀ x ∈ (cleanup_old_rss_items false m s).items, x ∈ s.items) ∧
      (∀ x ∈ (cleanup_old_rss_items false m s).items, ∀ y ∈ s.items,
        y ∉ (cleanup_old_rss_items false m s).items →
          y.published_date ≤ x.published_date) ∧
      ((s.items.map Item.published_date).Nodup →
        ∀ x ∈ (cleanup_old_rss_items false m s).items, ∀ y ∈ s.items,
          y ∉ (cleanup_old_rss_items false m s).items →
            y.published_date < x.published_date)) ∧
    (m < 0 → (cleanup_old_rss_items false m s).items = []) := by
  have hcount : (get_rss_items_count false s : Int) = (s.items.length : Int) := rfl
  have hclgen : m < (s.items.length : Int) →
      cleanup_old_rss_items false m s =
        { s with items := s.items.filter (fun it =>
            !(decide (it.id ∈ ((sortAsc s.items).take
              (((s.items.length : Int) - m).toNat)).map Item.id))) } := by
    intro hgt
    simp only [cleanup_old_rss_items, tryExcept_false]
    rw [if_pos hgt]
  have hpermgen : m < (s.items.length : Int) →
      ((cleanup_old_rss_items false m s).items).Perm
        ((sortAsc s.items).drop (((s.items.length : Int) - m).toNat)) := by
    intro hgt
    rw [hclgen hgt]
    exact filter_victims_perm_drop s.items (sortAsc s.items) _ (sortAsc_perm _) hwf.1
  refine ⟨?_, ?_, ?_⟩
  · intro hle
    rw [hcount] at hle
    simp only [cleanup_old_rss_items, tryExcept_false]
    rw [if_neg (by omega)]
  · intro hm hgt
    rw [hcount] at hgt
    have hcl := hclgen hgt
    have hperm := hpermgen hgt
    have hlen1 : (sortAsc s.items).length = s.items.length :=
      (sortAsc_perm s.items).length_eq
    have hNval : ((((s.items.length : Int) - m).toNat : Int)) =
        (s.items.length : Int) - m :=
      Int.toNat_of_nonneg (by omega)
    have hlen : ((cleanup_old_rss_items false m s).items).length =
        s.items.length - (((s.items.length : Int) - m).toNat) := by
      rw [hperm.length_eq, List.length_drop, hlen1]
    have hmem : ∀ x ∈ (cleanup_old_rss_items false m s).items, x ∈ s.items := by
      intro x hx
      rw [hcl] at hx
      exact (List.mem_filter.mp hx).1
    have hbeats : ∀ x ∈ (cleanup_old_rss_items false m s).items, ∀ y ∈ s.items,
        y ∉ (cleanup_old_rss_items false m s).items →
          y.published_date ≤ x.published_date := by
      intro x hx y hy hyn
      have hxd : x ∈ (sortAsc s.items).drop (((s.items.length : Int) - m).toNat) :=
        hperm.mem_iff.mp hx
      have hy' : y ∈ (sortAsc s.items).take (((s.items.length : Int) - m).toNat) ++
          (sortAsc s.items).drop (((s.items.length : Int) - m).toNat) := by
        rw [List.take_append_drop]
        exact (sortAsc_perm s.items).mem_iff.mpr hy
      rcases List.mem_append.mp hy' with hyt | hyd
      · have hsorted : List.Pairwise pdLe
            ((sortAsc s.items).take (((s.items.length : Int) - m).toNat) ++
              (sortAsc s.items).drop (((s.items.length : Int) - m).toNat)) := by
          rw [List.take_append_drop]
          exact sortAsc_sorted s.items
        exact (List.pairwise_append.mp hsorted).2.2 y hyt x hxd
      · exact absurd (hperm.mem_iff.mpr hyd) hyn
    refine ⟨?_, hmem, hbeats, ?_⟩
    · show (((cleanup_old_rss_items false m s).items).length : Int) = m
      rw [hlen]
      omega
    · intro hnd x hx y hy hyn
      have hle := hbeats x hx y hy hyn
      have hxs : x ∈ s.items := hmem x hx
      rcases lt_or_eq_of_le hle with hlt | heq
      · exact hlt
      · exfalso
        have hyx : y = x := List.inj_on_of_nodup_map hnd hy hxs heq
        cases hyx
        exact hyn hx
  · intro hneg
    have hgt : m < (s.items.length : Int) := by
      have hpos : (0 : Int) ≤ (s.items.length : Int) := Int.ofNat_nonneg _
      omega
    have hdropnil :
        (sortAsc s.items).drop (((s.items.length : Int) - m).toNat) = [] := by
      apply List.drop_eq_nil_of_le
      rw [(sortAsc_perm s.items).length_eq]
      omega
    have hnil : ((cleanup_old_rss_items false m s).items).Perm [] := by
      rw [← hdropnil]
      exact hpermgen hgt
    exact hnil.eq_nil

/-- Witness for C2 at concrete inputs: on the two-row sample store,
`trim(5)` is a no-op and `trim(1)` leaves exactly one row. -/
theorem trim_retention_bound_witness :
    cleanup_old_rss_items false 5 sampleStore = sampleStore ∧
    (get_rss_items_count false (cleanup_old_rss_items false 1 sampleStore) : Int) = 1 :=
  ⟨(trim_retention_bound sampleStore 5 (by decide)).1 (by decide),
   ((trim_retention_bound sampleStore 1 (by decide)).2.1 (by decide) (by decide)).1⟩

/-- Counterexample for C2 as stated: with `maxCount = -1` (count 2 > -1),
trim cannot delete `count() - maxCount = 3` rows — it deletes both — and
afterwards `count() <= maxCount` is false (0 > -1). -/
theorem trim_negative_counterexample :
    get_rss_items_count false sampleStore = 2 ∧
    get_rss_items_count false (cleanup_old_rss_items false (-1) sampleStore) = 0 ∧
    ¬ ((get_rss_items_count false (cleanup_old_rss_items false (-1) sampleStore) : Int) ≤ -1) := by
  decide

/-- C3 (amended): for every well-formed store state and every
`limit ≥ 0`, `list(limit)` returns exactly `min limit count()` entries
(hence at most `limit`), each one the projection of a stored row, ordered
descending by `published_date` — strictly descending when the stored
`published_date` values are distinct — and the selected rows dominate the
`published_date` of every unselected row, so for distinct dates the result
is the sorted-descending sequence truncated to `limit`. -/
theorem list_ordering_truncation (s : Store) (limit : Int) (hwf : WF s)
    (hl : 0 ≤ limit) :
    (get_rss_items false limit s).length = min limit.toNat s.items.length ∧
    (∀ r ∈ get_rss_items false limit s, ∃ it ∈ s.items, Item.toRow it = r) ∧
    List.Pairwise (fun a b : Row => b.published_date ≤ a.published_date)
      (get_rss_items false limit s) ∧
    ((s.items.map Item.published_date).Nodup →
      List.Pairwise (fun a b : Row => b.published_date < a.published_date)
        (get_rss_items false limit s)) ∧
    (∀ x ∈ selected_items limit s, ∀ y ∈ s.items, y ∉ selected_items limit s →
      y.published_date ≤ x.published_date) := by
  have hsel : selected_items limit s = (sortDesc s.items).take limit.toNat := by
    simp only [selected_items]
    rw [if_neg (not_lt.mpr hl)]
  have hget : get_rss_items false limit s = (selected_items limit s).map Item.toRow := rfl
  have hsub : List.Sublist (selected_items limit s) (sortDesc s.items) := by
    rw [hsel]
    exact List.take_sublist _ _
  have hsorted : List.Pairwise pdGe (selected_items limit s) :=
    (sortDesc_sorted s.items).sublist hsub
  refine ⟨?_, ?_, ?_, ?_, ?_⟩
  · rw [hget, List.length_map, hsel, List.length_take, (sortDesc_perm s.items).length_eq]
  · intro r hr
    rw [hget] at hr
    obtain ⟨it, hit, rfl⟩ := List.mem_map.mp hr
    exact ⟨it, (sortDesc_perm s.items).mem_iff.mp (hsub.subset hit), rfl⟩
  · rw [hget]
    exact List.pairwise_map.mpr (hsorted.imp (fun h => h))
  · intro hnd
    have hnd1 : ((sortDesc s.items).map Item.published_date).Nodup :=
      ((sortDesc_perm s.items).map Item.published_date).nodup_iff.mpr hnd
    have hnd2 : ((selected_items limit s).map Item.published_date).Nodup :=
      hnd1.sublist (hsub.map Item.published_date)
    have hne : List.Pairwise
        (fun a b : Item => a.published_date ≠ b.published_date)
        (selected_items limit s) := List.pairwise_map.mp hnd2
    rw [hget]
    refine List.pairwise_map.mpr ((hsorted.and hne).imp ?_)
    rintro a b ⟨hleab, hnee⟩
    exact lt_of_le_of_ne hleab (fun hc => hnee hc.symm)
  · intro x hx y hy hyn
    rw [hsel] at hx hyn
    have hy' : y ∈ (sortDesc s.items).take limit.toNat ++
        (sortDesc s.items).drop limit.toNat := by
      rw [List.take_append_drop]
      exact (sortDesc_perm s.items).mem_iff.mpr hy
    rcases List.mem_append.mp hy' with hyt | hyd
    · exact absurd hyt hyn
    · have hps : List.Pairwise pdGe ((sortDesc s.items).take limit.toNat ++
          (sortDesc s.items).drop limit.toNat) := by
        rw [List.take_append_drop]
        exact sortDesc_sorted s.items
      exact (List.pairwise_append.mp hps).2.2 x hx y hyd

/-- Witness for C3 at a concrete input: listing the two-row sample store
with `limit = 1` returns exactly one entry. -/
theorem list_ordering_truncation_witness :
    (get_rss_items false 1 sampleStore).length =
      min (1 : Int).toNat sampleStore.items.length :=
  (list_ordering_truncation sampleStore 1 (by decide) (by decide)).1

/-- Counterexample for C3 as stated: with `limit = -1` the query returns
both rows, violating "at most `limit` entries"; and on a store with tied
`published_date` values the result is not strictly descending. -/
theorem list_counterexample :
    ((get_rss_items false (-1) sampleStore).length = 2 ∧
      ¬ (((get_rss_items false (-1) sampleStore).length : Int) ≤ -1)) ∧
    ¬ List.Pairwise (fun a b : Row => b.published_date < a.published_date)
        (get_rss_items false 100 tieStore) := by
  decide

/-- C10: negative limit at the public interface: the `limit` is passed
directly into SQLite's `LIMIT` clause, where a negative value means
unbounded, so `list(limit)` with `limit < 0` returns every persisted
item, still ordered descending by `published_date`. -/
theorem negative_limit_returns_all (s : Store) (limit : Int) (h : limit < 0) :
    (get_rss_items false limit s).length = s.items.length ∧
    (∀ it ∈ s.items, it.toRow ∈ get_rss_items false limit s) ∧
    List.Pairwise (fun a b : Row => b.published_date ≤ a.published_date)
      (get_rss_items false limit s) := by
  have hsel : selected_items limit s = sortDesc s.items := by
    simp only [selected_items]
    rw [if_pos h]
  have hget : get_rss_items false limit s = (selected_items limit s).map Item.toRow := rfl
  refine ⟨?_, ?_, ?_⟩
  · rw [hget, List.length_map, hsel, (sortDesc_perm s.items).length_eq]
  · intro it hit
    rw [hget, hsel]
    exact List.mem_map_of_mem Item.toRow ((sortDesc_perm s.items).mem_iff.mpr hit)
  · rw [hget, hsel]
    exact List.pairwise_map.mpr ((sortDesc_sorted s.items).imp (fun h => h))

/-- Witness for C10 at a concrete input: `limit = -1` on the two-row
sample store returns both rows. -/
theorem negative_limit_returns_all_witness :
    (get_rss_items false (-1) sampleStore).length = sampleStore.items.length :=
  (negative_limit_returns_all sampleStore (-1) (by decide)).1

end RssPlugin
